import Mathlib

/-!
Verification of the EMG acquisition-and-fanout server (`server.py`).

Shallow embedding of the server's core:
  * the signal decoder (`line.decode('utf-8').strip()` then `int(...)`,
    then the threshold `1 if emg_value > 100 else 0`),
  * the subscriber registry (`ConnectionManager`: a Python list with
    `append`, `remove`, and the broadcast loop),
  * the port resolver (`find_emg_port`),
  * the busy-port reclaim logic around `serial.Serial(...)`,
  * the acquisition loop (`send_data`) as a step function on its state
    (`global_serial` open or not, bound `port`, `retry_count`).
-/

namespace VRHSI

/-! ## Signal decoder

Python: `decoded_line = line.decode('utf-8').strip()` then
`emg_value = int(decoded_line)`; a `UnicodeDecodeError` from `.decode`
is a subclass of `ValueError`, so both failure modes land in the same
`except ValueError` branch.

`pyIntParse` models `int(...)` on the stripped text: an optional single
sign followed by one or more ASCII decimal digits.  (Python's `int` also
accepts underscore grouping and non-ASCII digits; the device protocol is
ASCII decimal lines, and no behaviour claimed here depends on those
extras.) -/

def isPyDigit (c : Char) : Bool := '0' ≤ c && c ≤ '9'

def digitVal (c : Char) : Nat := c.toNat - '0'.toNat

def parseDigitsAux (acc : Nat) : List Char → Option Nat
  | [] => some acc
  | c :: cs => if isPyDigit c then parseDigitsAux (10 * acc + digitVal c) cs else none

/-- A non-empty all-digit run parses to its value; anything else fails. -/
def parseDigits : List Char → Option Nat
  | [] => none
  | c :: cs => parseDigitsAux 0 (c :: cs)

/-- The whitespace characters removed by Python `str.strip()` (ASCII part). -/
def isPyWS (c : Char) : Bool :=
  c == ' ' || c == '\t' || c == '\n' || c == '\r' || c == '\x0b' || c == '\x0c'

/-- Python `str.strip()`: drop whitespace from both ends. -/
def pyStrip (cs : List Char) : List Char :=
  ((cs.dropWhile isPyWS).reverse.dropWhile isPyWS).reverse

/-- Sign handling of Python `int(...)` after stripping. -/
def pySigned : List Char → Option Int
  | [] => none
  | c :: rest =>
    if c = '-' then (parseDigits rest).map (fun n => -(n : Int))
    else if c = '+' then (parseDigits rest).map (fun n => (n : Int))
    else (parseDigits (c :: rest)).map (fun n => (n : Int))

/-- Python `int(text.strip())`, as an `Option` (None = `ValueError`). -/
def pyIntParse (cs : List Char) : Option Int :=
  pySigned (pyStrip cs)

/-- A raw line as returned by `readline()`: either bytes that decode as
UTF-8 (given by their characters) or bytes that do not
(`UnicodeDecodeError`). -/
inductive Line where
  | utf8 (cs : List Char)
  | invalid
deriving DecidableEq

/-- Decode `line.decode('utf-8').strip()` then `int(...)`; `none` is the
`ValueError` branch of `send_data`. -/
def decodeLine (l : Line) : Option Int :=
  match l with
  | .utf8 cs => pyIntParse cs
  | .invalid => none

/-- Threshold `emg_data = 1 if emg_value > 100 else 0` (server.py line 226). -/
def eventOf (v : Int) : Nat := if v > 100 then 1 else 0

/-- Full decode of one raw line into the broadcast event. -/
def decodeEvent (l : Line) : Option Nat := (decodeLine l).map eventOf

/-- Standard base-10 rendering of a natural number, least significant
digit last. -/
def natDigitChar (d : Nat) : Char := Char.ofNat ('0'.toNat + d)

def natRepr (n : Nat) : List Char :=
  if h : n < 10 then [natDigitChar n]
  else natRepr (n / 10) ++ [natDigitChar (n % 10)]
decreasing_by exact Nat.div_lt_self (by omega) (by omega)

/-- The base-10 text of an integer, as the device would send it. -/
def decimalRepr (v : Int) : List Char :=
  if v < 0 then '-' :: natRepr v.natAbs else natRepr v.toNat

lemma isPyDigit_natDigitChar {d : Nat} (h : d < 10) :
    isPyDigit (natDigitChar d) = true := by
  interval_cases d <;> decide

lemma parseDigitsAux_digit (d : Nat) (h : d < 10) (acc : Nat) :
    parseDigitsAux acc [natDigitChar d] = some (10 * acc + d) := by
  interval_cases d <;> rfl

lemma parseDigitsAux_append (acc : Nat) (xs ys : List Char) :
    parseDigitsAux acc (xs ++ ys)
      = (parseDigitsAux acc xs).bind (fun m => parseDigitsAux m ys) := by
  induction xs generalizing acc with
  | nil => simp [parseDigitsAux]
  | cons c cs ih =>
    simp only [List.cons_append, parseDigitsAux]
    cases hc : isPyDigit c <;> simp [hc, ih]

lemma natRepr_parse (n : Nat) :
    ∃ B, 0 < B ∧ ∀ acc, parseDigitsAux acc (natRepr n) = some (acc * B + n) := by
  induction n using Nat.strong_induction_on with
  | _ n ih =>
    rw [natRepr]
    by_cases h : n < 10
    · refine ⟨10, by omega, fun acc => ?_⟩
      rw [dif_pos h, parseDigitsAux_digit n h acc]
      congr 1
      omega
    · obtain ⟨B, hB, hIH⟩ := ih (n / 10) (Nat.div_lt_self (by omega) (by omega))
      refine ⟨B * 10, by positivity, fun acc => ?_⟩
      rw [dif_neg h, parseDigitsAux_append, hIH acc]
      simp only [Option.some_bind]
      rw [parseDigitsAux_digit (n % 10) (Nat.mod_lt _ (by omega)) _]
      congr 1
      have h1 : 10 * (n / 10) + n % 10 = n := by omega
      calc 10 * (acc * B + n / 10) + n % 10
          = acc * (B * 10) + (10 * (n / 10) + n % 10) := by ring
        _ = acc * (B * 10) + n := by rw [h1]

lemma natRepr_ne_nil (n : Nat) : natRepr n ≠ [] := by
  rw [natRepr]
  split <;> simp

lemma parseDigits_natRepr (n : Nat) : parseDigits (natRepr n) = some n := by
  obtain ⟨B, hB, hP⟩ := natRepr_parse n
  have hne := natRepr_ne_nil n
  cases hcs : natRepr n with
  | nil => exact absurd hcs hne
  | cons c cs =>
    have h0 := hP 0
    rw [hcs] at h0
    simpa [parseDigits] using h0

lemma natRepr_digits (n : Nat) : ∀ c ∈ natRepr n, isPyDigit c = true := by
  induction n using Nat.strong_induction_on with
  | _ n ih =>
    rw [natRepr]
    by_cases h : n < 10
    · rw [dif_pos h]
      intro c hc
      rw [List.mem_singleton] at hc
      subst hc
      exact isPyDigit_natDigitChar h
    · rw [dif_neg h]
      intro c hc
      rcases List.mem_append.mp hc with hc | hc
      · exact ih (n / 10) (Nat.div_lt_self (by omega) (by omega)) c hc
      · rw [List.mem_singleton] at hc
        subst hc
        exact isPyDigit_natDigitChar (Nat.mod_lt _ (by omega))

lemma digit_not_ws {c : Char} (h : isPyDigit c = true) : isPyWS c = false := by
  by_contra hws
  rw [Bool.not_eq_false] at hws
  simp only [isPyWS, Bool.or_eq_true, beq_iff_eq] at hws
  rcases hws with ((((rfl | rfl) | rfl) | rfl) | rfl) | rfl <;>
    exact absurd h (by decide)

lemma dropWhile_ws_eq_self (l : List Char) (h : ∀ c ∈ l, isPyWS c = false) :
    l.dropWhile isPyWS = l := by
  cases l with
  | nil => rfl
  | cons c cs =>
    rw [List.dropWhile_cons, h c (by simp)]
    simp

lemma pyStrip_wrap (l : List Char) (hne : l ≠ [])
    (hall : ∀ c ∈ l, isPyWS c = false) : pyStrip (l ++ ['\n']) = l := by
  have hrev : (l.reverse).dropWhile isPyWS = l.reverse :=
    dropWhile_ws_eq_self _ (fun c hc => hall c (List.mem_reverse.mp hc))
  have h1 : (l ++ ['\n']).dropWhile isPyWS = l ++ ['\n'] := by
    cases l with
    | nil => exact absurd rfl hne
    | cons c cs =>
      rw [List.cons_append, List.dropWhile_cons, hall c (by simp)]
      simp
  unfold pyStrip
  rw [h1, List.reverse_append]
  simp only [List.reverse_cons, List.reverse_nil, List.nil_append,
    List.singleton_append]
  rw [List.dropWhile_cons]
  have hnl : isPyWS '\n' = true := by decide
  rw [hnl]
  simp [hrev]

lemma decimalRepr_ne_nil (v : Int) : decimalRepr v ≠ [] := by
  unfold decimalRepr
  split
  · simp
  · exact natRepr_ne_nil _

lemma decimalRepr_no_ws (v : Int) : ∀ c ∈ decimalRepr v, isPyWS c = false := by
  unfold decimalRepr
  split
  · intro c hc
    rcases List.mem_cons.mp hc with rfl | hc
    · decide
    · exact digit_not_ws (natRepr_digits _ c hc)
  · intro c hc
    exact digit_not_ws (natRepr_digits _ c hc)

/-- Decoding the base-10 text of `v` (with its terminating newline)
recovers `v`. -/
lemma pyIntParse_decimalRepr (v : Int) :
    pyIntParse (decimalRepr v ++ ['\n']) = some v := by
  unfold pyIntParse
  rw [pyStrip_wrap _ (decimalRepr_ne_nil v) (decimalRepr_no_ws v)]
  unfold decimalRepr
  by_cases hv : v < 0
  · rw [if_pos hv]
    have habs : ((v.natAbs : Int)) = -v := Int.ofNat_natAbs_of_nonpos (by omega)
    simp [pySigned, parseDigits_natRepr, habs]
  · rw [if_neg hv]
    have hne := natRepr_ne_nil v.toNat
    cases hcs : natRepr v.toNat with
    | nil => exact absurd hcs hne
    | cons c cs =>
      have hdig : isPyDigit c = true := by
        apply natRepr_digits v.toNat
        rw [hcs]
        simp
      have hcm : c ≠ '-' := by
        intro h
        subst h
        exact absurd hdig (by decide)
      have hcp : c ≠ '+' := by
        intro h
        subst h
        exact absurd hdig (by decide)
      simp only [pySigned, if_neg hcm, if_neg hcp]
      rw [← hcs, parseDigits_natRepr]
      have htn : ((v.toNat : Int)) = v := Int.toNat_of_nonneg (by omega)
      simp [htn]

/-- Claim C1: for every integer `v`, decoding the device line containing
the base-10 text of `v` produces event `1` if `v > 100` and event `0`
otherwise (including `v = 100` and negative `v`). -/
theorem decode_threshold (v : Int) :
    decodeEvent (Line.utf8 (decimalRepr v ++ ['\n']))
      = some (if 100 < v then 1 else 0) := by
  simp [decodeEvent, decodeLine, pyIntParse_decimalRepr v, eventOf]

/-! ## Subscriber registry and broadcast dispatcher

`ConnectionManager` keeps `active_connections`, a Python list of
websockets.  `connect` does `list.append`; `disconnect` does
`list.remove`, which raises `ValueError` when the element is absent.
`broadcast` iterates the list, collects every connection whose
`send_text` raises into `to_remove`, and only after the full pass calls
`disconnect` on each collected connection.

Subscribers are modelled by an identifier (`Nat`); whether `send_text`
raises for a given subscriber is supplied as a `fail` oracle. -/

abbrev Sub := Nat

inductive PyError where
  | valueError
deriving DecidableEq

/-- Python `list.remove`: delete the first occurrence, or raise
`ValueError` when the element is absent. -/
def pyListRemove (l : List Sub) (a : Sub) : Except PyError (List Sub) :=
  if a ∈ l then .ok (l.erase a) else .error .valueError

namespace ConnectionManager

/-- Method `connect`: `self.active_connections.append(websocket)`. -/
def connect (regs : List Sub) (s : Sub) : List Sub := regs ++ [s]

/-- Method `disconnect`: `self.active_connections.remove(websocket)`. -/
def disconnect (regs : List Sub) (s : Sub) : Except PyError (List Sub) :=
  pyListRemove regs s

/-- The `for connection in self.active_connections` loop of `broadcast`:
returns the successfully delivered connections (in order) and the
`to_remove` list (in order). -/
def deliverPass (fail : Sub → Bool) : List Sub → List Sub × List Sub
  | [] => ([], [])
  | c :: cs =>
    let rest := deliverPass fail cs
    if fail c then (rest.1, c :: rest.2) else (c :: rest.1, rest.2)

/-- Method `broadcast`: the delivery pass followed by
`for connection in to_remove: self.disconnect(connection)`. -/
def broadcast (regs : List Sub) (fail : Sub → Bool) :
    Except PyError (List Sub × List Sub) :=
  (((deliverPass fail regs).2).foldlM (fun acc c => disconnect acc c) regs).map
    (fun r => ((deliverPass fail regs).1, r))

lemma exceptOkBind {α β : Type} (a : α) (f : α → Except PyError β) :
    (Except.ok a >>= f) = f a := rfl

lemma deliverPass_eq_filter (fail : Sub → Bool) (regs : List Sub) :
    deliverPass fail regs
      = (regs.filter (fun c => !fail c), regs.filter (fun c => fail c)) := by
  induction regs with
  | nil => rfl
  | cons c cs ih =>
    simp only [deliverPass, ih, List.filter_cons]
    cases hc : fail c <;> simp

lemma removeFold_ok (rem regs : List Sub) (hsub : ∀ x ∈ rem, x ∈ regs)
    (hremnd : rem.Nodup) (hnd : regs.Nodup) :
    rem.foldlM (fun acc c => disconnect acc c) regs
      = .ok (regs.filter (fun c => !(c ∈ rem : Bool))) := by
  induction rem generalizing regs with
  | nil =>
    have hid : (regs.filter (fun c => !(c ∈ ([] : List Sub) : Bool))) = regs := by
      apply List.filter_eq_self.mpr
      intro a ha
      simp
    rw [hid]
    rfl
  | cons c cs ih =>
    have hc : c ∈ regs := hsub c (by simp)
    have hcs : c ∉ cs := (List.nodup_cons.mp hremnd).1
    have hnd2 : (regs.erase c).Nodup := hnd.erase c
    have hsub2 : ∀ x ∈ cs, x ∈ regs.erase c := by
      intro x hx
      have hxr : x ∈ regs := hsub x (List.mem_cons_of_mem c hx)
      have hxc : x ≠ c := by
        intro h
        subst h
        exact hcs hx
      exact List.mem_erase_of_ne hxc |>.mpr hxr
    have hdc : disconnect regs c = Except.ok (regs.erase c) := by
      simp [disconnect, pyListRemove, hc]
    rw [List.foldlM_cons, hdc, exceptOkBind,
      ih (regs.erase c) hsub2 (List.nodup_cons.mp hremnd).2 hnd2]
    congr 1
    rw [hnd.erase_eq_filter c, List.filter_filter]
    apply List.filter_congr
    intro x hx
    simp only [Bool.and_comm]
    cases hxc : (x == c) with
    | true =>
      have : x = c := by simpa using hxc
      subst this
      simp [List.mem_cons, hcs]
    | false =>
      have hne : ¬ x = c := by simpa using hxc
      simp [List.mem_cons, hne, hxc]

/-- Helper shared by the dispatcher claims: on a duplicate-free registry,
`broadcast` succeeds, delivers to exactly the non-failing subscribers,
and afterwards the registry holds exactly the non-failing subscribers. -/
lemma broadcast_eq (regs : List Sub) (fail : Sub → Bool) (hnd : regs.Nodup) :
    broadcast regs fail
      = .ok (regs.filter (fun c => !fail c), regs.filter (fun c => !fail c)) := by
  unfold broadcast
  rw [deliverPass_eq_filter]
  have hsub : ∀ x ∈ regs.filter (fun c => fail c), x ∈ regs := by
    intro x hx
    exact (List.mem_filter.mp hx).1
  rw [removeFold_ok (regs.filter (fun c => fail c)) regs hsub
    (hnd.filter _) hnd]
  have hf : (regs.filter (fun c => !(c ∈ regs.filter (fun c => fail c) : Bool)))
      = regs.filter (fun c => !fail c) := by
    apply List.filter_congr
    intro x hx
    cases hfx : fail x with
    | true => simp [List.mem_filter, hx, hfx]
    | false => simp [List.mem_filter, hx, hfx]
  rw [hf]
  rfl

end ConnectionManager

/-- Claim C3: for a registry of distinct subscribers in which the subset
failing delivery is given by `fail`, `broadcast` attempts delivery to each
subscriber independently, delivers to every non-failing subscriber, and
removes exactly the failing ones from the registry, the removals being
applied only after the full delivery pass (the returned delivery list
covers the whole original registry). -/
theorem broadcast_delivers_and_prunes (regs : List Sub) (fail : Sub → Bool)
    (hnd : regs.Nodup) :
    ConnectionManager.broadcast regs fail
      = .ok (regs.filter (fun c => !fail c), regs.filter (fun c => !fail c)) :=
  ConnectionManager.broadcast_eq regs fail hnd

theorem broadcast_delivers_and_prunes_witness :
    ConnectionManager.broadcast [1, 2, 3] (fun c => c == 2)
      = .ok ([1, 3], [1, 3]) := by
  rw [broadcast_delivers_and_prunes [1, 2, 3] (fun c => c == 2) (by decide)]
  rfl

/-- Claim C4 as stated is false on the code: `connect` is a plain
`list.append`, so adding the same subscriber twice leaves two entries in
the registry, not one. -/
theorem registry_add_twice_cex :
    ¬ ((ConnectionManager.connect (ConnectionManager.connect [] 0) 0).count 0
        = 1) := by
  decide

/-- Claim C4 (amended): for a registry not already holding `s`, add
followed by remove restores the registry (so the snapshot does not
contain `s`); add performed twice yields exactly two entries for `s`
(append does not deduplicate). -/
theorem registry_add_remove (regs : List Sub) (s : Sub) (h : s ∉ regs) :
    ConnectionManager.disconnect (ConnectionManager.connect regs s) s = .ok regs
      ∧ (ConnectionManager.connect (ConnectionManager.connect regs s) s).count s
          = 2 := by
  constructor
  · unfold ConnectionManager.disconnect ConnectionManager.connect pyListRemove
    rw [if_pos (by simp)]
    rw [List.erase_append_right _ h]
    simp
  · unfold ConnectionManager.connect
    rw [List.count_append, List.count_append,
      List.count_eq_zero_of_not_mem h]
    simp

theorem registry_add_remove_witness :
    ConnectionManager.disconnect (ConnectionManager.connect [5] 0) 0 = .ok [5]
      ∧ (ConnectionManager.connect (ConnectionManager.connect [5] 0) 0).count 0
          = 2 :=
  registry_add_remove [5] 0 (by decide)

/-- Claim C10: `disconnect` is not idempotent — removing a subscriber that
is not in the registry takes the `ValueError` branch of `list.remove`;
in particular a subscriber already pruned by a failed broadcast is no
longer in the registry, so the disconnect triggered by its connection
closing errors. -/
theorem disconnect_missing_raises (regs : List Sub) (s : Sub)
    (fail : Sub → Bool) :
    (s ∉ regs → ConnectionManager.disconnect regs s = .error .valueError)
      ∧ (regs.Nodup → fail s = true → s ∈ regs →
          ConnectionManager.broadcast regs fail
            = .ok (regs.filter (fun c => !fail c),
                regs.filter (fun c => !fail c))
          ∧ ConnectionManager.disconnect (regs.filter (fun c => !fail c)) s
              = .error .valueError) := by
  constructor
  · intro h
    simp [ConnectionManager.disconnect, pyListRemove, h]
  · intro hnd hf hs
    refine ⟨ConnectionManager.broadcast_eq regs fail hnd, ?_⟩
    have hnot : s ∉ regs.filter (fun c => !fail c) := by
      intro hmem
      have hmf := (List.mem_filter.mp hmem).2
      rw [hf] at hmf
      simp at hmf
    simp [ConnectionManager.disconnect, pyListRemove, hnot]

theorem disconnect_missing_raises_witness :
    ConnectionManager.disconnect [1] 0 = .error .valueError
      ∧ ConnectionManager.broadcast [0] (fun _ => true) = .ok ([], [])
      ∧ ConnectionManager.disconnect [] 0 = .error .valueError := by
  refine ⟨(disconnect_missing_raises [1] 0 (fun _ => true)).1 (by decide),
    ?_, ?_⟩
  · rw [((disconnect_missing_raises [0] 0 (fun _ => true)).2 (by decide) rfl
      (by decide)).1]
    rfl
  · have h := ((disconnect_missing_raises [0] 0 (fun _ => true)).2 (by decide)
      rfl (by decide)).2
    simpa using h

/-! ## Port resolver

`find_emg_port` lists the serial ports; returns `None` when none exist;
otherwise returns the first port whose description contains (Python `in`,
a case-sensitive substring test) one of the fixed adapter markers, and
falls back to the first enumerated port when no description matches. -/

structure PortCandidate where
  device : String
  description : String
deriving DecidableEq

/-- Contiguous-sublist test on characters, modelling Python's
`needle in haystack` for strings (the empty needle matches). -/
def containsSub (needle : List Char) : List Char → Bool
  | [] => needle.isEmpty
  | c :: cs => needle.isPrefixOf (c :: cs) || containsSub needle cs

/-- Python `needle in haystack` on strings. -/
def strContains (haystack needle : String) : Bool :=
  containsSub needle.toList haystack.toList

/-- The list `common_identifiers = ['USB', 'Serial', 'FTDI', 'CH340', 'CP210']`. -/
def common_identifiers : List String :=
  ["USB", "Serial", "FTDI", "CH340", "CP210"]

/-- Test `any(identifier in port.description for identifier in
common_identifiers)`. -/
def matchesIdent (p : PortCandidate) : Bool :=
  common_identifiers.any (fun ident => strContains p.description ident)

/-- The `for port in ports` loop with its early `return port.device`. -/
def findLoop : List PortCandidate → Option String
  | [] => none
  | p :: ps => if matchesIdent p then some p.device else findLoop ps

/-- Function `find_emg_port`: `None` on an empty enumeration, else the loop's
match, else the first enumerated port. -/
def find_emg_port (ports : List PortCandidate) : Option String :=
  match ports with
  | [] => none
  | p0 :: _ =>
    match findLoop ports with
    | some d => some d
    | none => some p0.device

lemma findLoop_eq_find? (ports : List PortCandidate) :
    findLoop ports = (ports.find? matchesIdent).map PortCandidate.device := by
  induction ports with
  | nil => rfl
  | cons p ps ih =>
    cases hp : matchesIdent p with
    | true =>
      rw [List.find?_cons_of_pos _ hp]
      simp [findLoop, hp]
    | false =>
      rw [List.find?_cons_of_neg _ (by simp [hp])]
      simp [findLoop, hp, ih]

/-- Claim C8: `find_emg_port` returns the first enumerated port whose
description contains one of the fixed adapter markers (case-sensitive
substring); when nothing matches in a non-empty enumeration it returns
the first port; an empty enumeration yields `none`. -/
theorem find_emg_port_spec (ports : List PortCandidate) :
    (ports = [] → find_emg_port ports = none)
      ∧ (∀ p, ports.find? matchesIdent = some p →
          find_emg_port ports = some p.device)
      ∧ (ports ≠ [] → ports.find? matchesIdent = none →
          find_emg_port ports = (ports.head?).map PortCandidate.device) := by
  refine ⟨?_, ?_, ?_⟩
  · intro h
    subst h
    rfl
  · intro p hp
    cases ports with
    | nil => simp at hp
    | cons p0 ps =>
      unfold find_emg_port
      rw [findLoop_eq_find?, hp]
      rfl
  · intro hne hnone
    cases ports with
    | nil => exact absurd rfl hne
    | cons p0 ps =>
      unfold find_emg_port
      rw [findLoop_eq_find?, hnone]
      rfl

theorem find_emg_port_spec_witness :
    find_emg_port [] = none
      ∧ find_emg_port
          [⟨"/dev/cu.A", "Bluetooth device"⟩, ⟨"/dev/cu.B", "USB Serial"⟩]
          = some "/dev/cu.B"
      ∧ find_emg_port
          [⟨"/dev/cu.A", "Bluetooth device"⟩, ⟨"/dev/cu.C", "modem"⟩]
          = some "/dev/cu.A" := by
  refine ⟨(find_emg_port_spec []).1 rfl, ?_, ?_⟩
  · exact (find_emg_port_spec _).2.1 ⟨"/dev/cu.B", "USB Serial"⟩ (by decide)
  · rw [(find_emg_port_spec _).2.2 (by decide) (by decide)]
    rfl

/-! ## Busy-port reclaim (device link opening)

The connection block of `send_data` (lines 199-217): on macOS it first
calls `force_close_port(port)` (an `lsof` lookup, `kill -9` of the owning
process, and a one-second wait — there is no open-and-close probe
anywhere in the code); then it attempts `serial.Serial(...)`.  If that
raises with "Resource busy" it calls `force_close_port` again and retries
the open exactly once; a failure of that retry, or a non-busy failure of
the first open, propagates to the outer `except serial.SerialException`
handler.  `force_close_port` is a no-op on non-macOS platforms.

The observable steps are recorded as a trace of `PortAction`s; the
vocabulary includes `probeOpenClose` so that the spec's claimed
open-and-immediately-close probe is expressible — the embedded code never
performs it. -/

inductive Platform where
  | darwin
  | other
deriving DecidableEq

inductive OpenResult where
  | ok
  | busy
  | fail
deriving DecidableEq

inductive PortAction where
  | lsofKill
  | openAttempt
  | probeOpenClose
deriving DecidableEq

inductive SerialErr where
  | serialException
deriving DecidableEq

/-- Function `force_close_port`: on macOS, locate the owning process with `lsof`,
`kill -9` it and wait briefly; elsewhere do nothing. -/
def force_close_port (plat : Platform) : List PortAction :=
  match plat with
  | .darwin => [.lsofKill]
  | .other => []

/-- One pass of the connection block: the pre-open `force_close_port` on
macOS, the first `serial.Serial` attempt, and on a "Resource busy"
failure the reclaim plus exactly one retry.  Returns the outcome together
with the trace of performed actions. -/
def connectAttempt (plat : Platform) (first second : OpenResult) :
    Except SerialErr Unit × List PortAction :=
  let pre := match plat with
    | .darwin => force_close_port plat
    | .other => []
  match first with
  | .ok => (.ok (), pre ++ [.openAttempt])
  | .busy =>
    let reclaim := force_close_port plat
    match second with
    | .ok => (.ok (), pre ++ [.openAttempt] ++ reclaim ++ [.openAttempt])
    | .busy =>
      (.error .serialException,
        pre ++ [.openAttempt] ++ reclaim ++ [.openAttempt])
    | .fail =>
      (.error .serialException,
        pre ++ [.openAttempt] ++ reclaim ++ [.openAttempt])
  | .fail => (.error .serialException, pre ++ [.openAttempt])

/-- Claim C5 as stated is false on the code: the manager never probes the
port by an open-and-immediately-close — on a busy port (here on macOS,
with the retry also failing busy) no `probeOpenClose` action occurs in
the trace; the pre-open step is the `lsof`/`kill` force close. -/
theorem connect_probe_cex :
    ¬ (PortAction.probeOpenClose ∈ (connectAttempt .darwin .busy .busy).2) := by
  decide

/-- Claim C5 (amended): before opening, on macOS the manager force-closes
the target port via a process lookup and kill (not an open-and-close
probe); when the real open fails with "resource busy" it force-closes
again, waits briefly, and retries the open exactly once more (two open
attempts in total); the retry succeeds iff its outcome is success, and
otherwise the error propagates to the caller's SerialException handler. -/
theorem connect_busy_retry (second : OpenResult) :
    (connectAttempt .darwin .busy second).2.count .openAttempt = 2
      ∧ ((connectAttempt .darwin .busy second).1 = .ok () ↔ second = .ok)
      ∧ (second ≠ .ok →
          (connectAttempt .darwin .busy second).1 = .error .serialException)
      ∧ PortAction.probeOpenClose ∉ (connectAttempt .darwin .busy second).2
      ∧ (connectAttempt .darwin .busy second).2.head? = some .lsofKill := by
  cases second with
  | ok =>
    refine ⟨by decide, ⟨fun _ => rfl, fun _ => rfl⟩, ?_, by decide, by decide⟩
    intro h
    exact absurd rfl h
  | busy =>
    exact ⟨by decide,
      ⟨fun h => Except.noConfusion h, fun h => OpenResult.noConfusion h⟩,
      fun _ => rfl, by decide, by decide⟩
  | fail =>
    exact ⟨by decide,
      ⟨fun h => Except.noConfusion h, fun h => OpenResult.noConfusion h⟩,
      fun _ => rfl, by decide, by decide⟩

theorem connect_busy_retry_witness :
    (connectAttempt .darwin .busy .fail).2.count .openAttempt = 2
      ∧ (connectAttempt .darwin .busy .fail).1 = .error .serialException := by
  refine ⟨(connect_busy_retry .fail).1, ?_⟩
  exact (connect_busy_retry .fail).2.2.1 (by decide)

/-! ## Acquisition loop (`send_data`)

One iteration of the `while True` body as a step function.  The state is
the loop's mutable data: whether `global_serial` is an open handle, the
bound `port`, and `retry_count` (`max_retries = 3`).  The environment of
an iteration supplies the visible serial ports (consulted only when no
port is bound), the outcome of the `serial.Serial` open (consulted only
when no open handle exists; `busySuccess` is the force-close-then-retry
success path of lines 208-215), and the outcome of the read step.

Sleep durations are recorded in hundredths of a second, so
`asyncio.sleep(5)` is `500` and `asyncio.sleep(0.01)` is `1`.

The `force_close_port` side effects of the connection block are covered
by `connectAttempt` above; the step function records only state, frames
handed to `broadcast`, and the sleep. -/

/-- Outcome of one `serial.Serial(...)` connection block. -/
inductive ConnectOutcome where
  | success
  | busySuccess
  | busyFail
  | fail
deriving DecidableEq

/-- Outcome of the `in_waiting`/`readline` step on an open handle:
nothing pending, one raw line, a `SerialException`, or a non-serial
exception (caught by the generic `except Exception` handler). -/
inductive ReadOutcome where
  | noData
  | line (l : Line)
  | readError
  | unexpectedError
deriving DecidableEq

structure SDState where
  serialOpen : Bool
  port : Option String
  retryCount : Nat
deriving DecidableEq

structure SDInput where
  ports : List PortCandidate
  connect : ConnectOutcome
  read : ReadOutcome
deriving DecidableEq

structure SDOutput where
  frames : List String
  delayCs : Nat
deriving DecidableEq

/-- The `except serial.SerialException` handler (lines 238-251): close
and drop the handle, increment `retry_count`, and at `max_retries = 3`
clear the bound port and reset the counter; then sleep 5 seconds. -/
def serialFailure (s : SDState) : SDState × SDOutput :=
  let rc := s.retryCount + 1
  if rc ≥ 3 then (⟨false, none, 0⟩, ⟨[], 500⟩)
  else (⟨false, s.port, rc⟩, ⟨[], 500⟩)

/-- The read half of the loop body (lines 219-236), reached with an open
handle. -/
def readPhase (s : SDState) (inp : SDInput) : SDState × SDOutput :=
  match inp.read with
  | .noData => (s, ⟨[], 1⟩)
  | .readError => serialFailure s
  | .unexpectedError => (⟨false, s.port, s.retryCount⟩, ⟨[], 500⟩)
  | .line l =>
    match decodeLine l with
    | none => (s, ⟨[], 1⟩)
    | some v => (s, ⟨[toString (eventOf v)], 1⟩)

/-- The connection block (lines 199-217) followed, on success, by the
read half of the same iteration. -/
def connectPhase (s : SDState) (inp : SDInput) : SDState × SDOutput :=
  match inp.connect with
  | .success => readPhase ⟨true, s.port, 0⟩ inp
  | .busySuccess => readPhase ⟨true, s.port, 0⟩ inp
  | .busyFail => serialFailure s
  | .fail => serialFailure s

/-- One iteration of `send_data`'s `while True` body. -/
def step (s : SDState) (inp : SDInput) : SDState × SDOutput :=
  if s.serialOpen then readPhase s inp
  else
    match s.port with
    | none =>
      match find_emg_port inp.ports with
      | none => (⟨false, none, s.retryCount⟩, ⟨[], 500⟩)
      | some p => connectPhase ⟨false, some p, s.retryCount⟩ inp
    | some _ => connectPhase s inp

lemma serialFailure_lt (s : SDState) (h : s.retryCount + 1 < 3) :
    serialFailure s = (⟨false, s.port, s.retryCount + 1⟩, ⟨[], 500⟩) := by
  unfold serialFailure
  rw [if_neg (by omega)]

lemma serialFailure_ge (s : SDState) (h : 3 ≤ s.retryCount + 1) :
    serialFailure s = (⟨false, none, 0⟩, ⟨[], 500⟩) := by
  unfold serialFailure
  rw [if_pos (by omega)]

lemma step_connect_fail (s : SDState) (p : String) (inp : SDInput)
    (hopen : s.serialOpen = false) (hport : s.port = some p)
    (hfail : inp.connect = .busyFail ∨ inp.connect = .fail) :
    step s inp = serialFailure s := by
  rcases hfail with hf | hf <;> simp [step, hopen, hport, connectPhase, hf]

/-- Claim C2: with a port bound and no open handle, connection failures 1
and 2 enter backoff leaving the bound port unchanged and incrementing the
counter; the 3rd consecutive failure clears the bound port and resets the
counter, so the next connection attempt with no bound port consults the
port resolver; any successful (re)connection resets the counter to 0. -/
theorem retry_policy (s : SDState) (p : String) (inp : SDInput)
    (hopen : s.serialOpen = false) (hport : s.port = some p)
    (hfail : inp.connect = .busyFail ∨ inp.connect = .fail) :
    (s.retryCount + 1 < 3 →
        (step s inp).1.port = some p
          ∧ (step s inp).1.retryCount = s.retryCount + 1
          ∧ (step s inp).2.delayCs = 500)
      ∧ (3 ≤ s.retryCount + 1 →
          (step s inp).1.port = none
            ∧ (step s inp).1.retryCount = 0
            ∧ (step s inp).2.delayCs = 500)
      ∧ (∀ inp2 : SDInput, inp2.connect = .success → inp2.read = .noData →
          (step s inp2).1.retryCount = 0)
      ∧ (∀ s3 : SDState, s3.serialOpen = false → s3.port = none →
          ∀ inp2 : SDInput, inp2.connect = .success → inp2.read = .noData →
            (step s3 inp2).1.port = find_emg_port inp2.ports) := by
  have hsf := step_connect_fail s p inp hopen hport hfail
  refine ⟨?_, ?_, ?_, ?_⟩
  · intro hlt
    rw [hsf, serialFailure_lt s hlt]
    exact ⟨hport, rfl, rfl⟩
  · intro hge
    rw [hsf, serialFailure_ge s hge]
    exact ⟨rfl, rfl, rfl⟩
  · intro inp2 hc hr
    simp [step, hopen, hport, connectPhase, hc, readPhase, hr]
  · intro s3 h3o h3p inp2 hc hr
    cases hfind : find_emg_port inp2.ports with
    | none => simp [step, h3o, h3p, hfind]
    | some q => simp [step, h3o, h3p, hfind, connectPhase, hc, readPhase, hr]

theorem retry_policy_witness :
    (step ⟨false, some "COM3", 0⟩ ⟨[], .fail, .noData⟩).1.port = some "COM3"
      ∧ (step ⟨false, some "COM3", 0⟩ ⟨[], .fail, .noData⟩).1.retryCount = 1
      ∧ (step ⟨false, some "COM3", 2⟩ ⟨[], .fail, .noData⟩).1.port = none
      ∧ (step ⟨false, some "COM3", 2⟩ ⟨[], .fail, .noData⟩).1.retryCount = 0
      ∧ (step ⟨false, none, 0⟩
          ⟨[⟨"/dev/X", "USB Serial"⟩], .success, .noData⟩).1.port
          = some "/dev/X" := by
  refine ⟨?_, ?_, ?_, ?_, ?_⟩
  · exact ((retry_policy ⟨false, some "COM3", 0⟩ "COM3" _ rfl rfl
      (Or.inr rfl)).1 (by decide)).1
  · exact ((retry_policy ⟨false, some "COM3", 0⟩ "COM3" _ rfl rfl
      (Or.inr rfl)).1 (by decide)).2.1
  · exact ((retry_policy ⟨false, some "COM3", 2⟩ "COM3" _ rfl rfl
      (Or.inr rfl)).2.1 (by decide)).1
  · exact ((retry_policy ⟨false, some "COM3", 2⟩ "COM3" _ rfl rfl
      (Or.inr rfl)).2.1 (by decide)).2.1
  · have h := (retry_policy ⟨false, some "COM3", 0⟩ "COM3"
      ⟨[], .fail, .noData⟩ rfl rfl (Or.inr rfl)).2.2.2
      ⟨false, none, 0⟩ rfl rfl
      ⟨[⟨"/dev/X", "USB Serial"⟩], .success, .noData⟩ rfl rfl
    rw [h]
    decide

/-- Claim C6: on an open handle, a malformed line (one whose decode
fails: non-numeric, empty, or invalid UTF-8) is dropped — no frame is
broadcast, the connection state (handle, bound port, retry counter) is
unchanged, the loop continues with the normal small delay, and from the
same state a subsequent well-formed sample is processed normally. -/
theorem malformed_line_skipped (s : SDState) (l : Line) (inp : SDInput)
    (hopen : s.serialOpen = true) (hline : inp.read = .line l)
    (hbad : decodeLine l = none) :
    (step s inp).1 = s ∧ (step s inp).2.frames = []
      ∧ (step s inp).2.delayCs = 1
      ∧ (∀ (v : Int) (inp2 : SDInput),
          inp2.read = .line (.utf8 (decimalRepr v ++ ['\n'])) →
            (step s inp2).1 = s
              ∧ (step s inp2).2.frames = [if 100 < v then "1" else "0"]) := by
  have h1 : step s inp = (s, ⟨[], 1⟩) := by
    simp [step, hopen, readPhase, hline, hbad]
  refine ⟨by rw [h1], by rw [h1], by rw [h1], ?_⟩
  intro v inp2 h2
  have hdec : decodeLine (Line.utf8 (decimalRepr v ++ ['\n'])) = some v :=
    pyIntParse_decimalRepr v
  have h2s : step s inp2 = (s, ⟨[toString (eventOf v)], 1⟩) := by
    simp [step, hopen, readPhase, h2, hdec]
  have h2f : (step s inp2).2.frames = [toString (eventOf v)] := by
    rw [h2s]
  refine ⟨by rw [h2s], ?_⟩
  rw [h2f]
  unfold eventOf
  by_cases hv : v > 100
  · rw [if_pos hv, if_pos hv]
    decide
  · rw [if_neg hv, if_neg hv]
    decide

theorem malformed_line_skipped_witness :
    (step ⟨true, some "COM3", 0⟩ ⟨[], .success, .line .invalid⟩).1
        = ⟨true, some "COM3", 0⟩
      ∧ (step ⟨true, some "COM3", 0⟩ ⟨[], .success, .line .invalid⟩).2.frames
          = []
      ∧ (step ⟨true, some "COM3", 0⟩
          ⟨[], .success, .line (.utf8 (decimalRepr 150 ++ ['\n']))⟩).2.frames
          = ["1"] := by
  have h := malformed_line_skipped ⟨true, some "COM3", 0⟩ .invalid
    ⟨[], .success, .line .invalid⟩ rfl rfl rfl
  refine ⟨h.1, h.2.1, ?_⟩
  have h2 := (h.2.2.2 150
    ⟨[], .success, .line (.utf8 (decimalRepr 150 ++ ['\n']))⟩ rfl).2
  rw [h2]
  decide

/-- Claim C7 as stated is false on the code: the "no port found" backoff
is `asyncio.sleep(5)` (line 196), the same as the connection-failure
backoff (line 251) — it is not strictly shorter. -/
theorem backoff_delay_cex :
    ¬ ((step ⟨false, none, 0⟩ ⟨[], .success, .noData⟩).2.delayCs
        < (step ⟨false, some "COM3", 0⟩ ⟨[], .fail, .noData⟩).2.delayCs) := by
  decide

/-- Claim C7 (amended): in backoff the loop waits the fixed 5-second
delay after a connection failure, and the same fixed 5-second delay (not
a shorter one) when no port was found. -/
theorem backoff_delays (s : SDState) (p : String) (inp inp2 : SDInput)
    (s2 : SDState) (hopen : s.serialOpen = false) (hport : s.port = some p)
    (hfail : inp.connect = .busyFail ∨ inp.connect = .fail)
    (h2o : s2.serialOpen = false) (h2p : s2.port = none)
    (hports : find_emg_port inp2.ports = none) :
    (step s inp).2.delayCs = 500 ∧ (step s2 inp2).2.delayCs = 500 := by
  constructor
  · rw [step_connect_fail s p inp hopen hport hfail]
    by_cases h3 : 3 ≤ s.retryCount + 1
    · rw [serialFailure_ge s h3]
    · rw [serialFailure_lt s (by omega)]
  · simp [step, h2o, h2p, hports]

theorem backoff_delays_witness :
    (step ⟨false, some "COM3", 0⟩ ⟨[], .fail, .noData⟩).2.delayCs = 500
      ∧ (step ⟨false, none, 0⟩ ⟨[], .success, .noData⟩).2.delayCs = 500 :=
  backoff_delays ⟨false, some "COM3", 0⟩ "COM3" ⟨[], .fail, .noData⟩
    ⟨[], .success, .noData⟩ ⟨false, none, 0⟩ rfl rfl (Or.inr rfl) rfl rfl rfl

lemma serialFailure_frames (s : SDState) :
    ((serialFailure s).2.frames).all (fun f => f == "0" || f == "1")
      = true := by
  by_cases h3 : 3 ≤ s.retryCount + 1
  · rw [serialFailure_ge s h3]
    rfl
  · rw [serialFailure_lt s (by omega)]
    rfl

lemma readPhase_frames (s : SDState) (inp : SDInput) :
    ((readPhase s inp).2.frames).all (fun f => f == "0" || f == "1")
      = true := by
  cases hr : inp.read with
  | noData => simp [readPhase, hr]
  | unexpectedError => simp [readPhase, hr]
  | readError =>
    rw [show readPhase s inp = serialFailure s from by simp [readPhase, hr]]
    exact serialFailure_frames s
  | line l =>
    cases hd : decodeLine l with
    | none => simp [readPhase, hr, hd]
    | some v =>
      have hf : (readPhase s inp).2.frames = [toString (eventOf v)] := by
        simp [readPhase, hr, hd]
      rw [hf]
      unfold eventOf
      by_cases hv : v > 100
      · rw [if_pos hv]
        decide
      · rw [if_neg hv]
        decide

lemma connectPhase_frames (s : SDState) (inp : SDInput) :
    ((connectPhase s inp).2.frames).all (fun f => f == "0" || f == "1")
      = true := by
  cases hc : inp.connect with
  | success =>
    rw [show connectPhase s inp = readPhase ⟨true, s.port, 0⟩ inp from by
      simp [connectPhase, hc]]
    exact readPhase_frames _ _
  | busySuccess =>
    rw [show connectPhase s inp = readPhase ⟨true, s.port, 0⟩ inp from by
      simp [connectPhase, hc]]
    exact readPhase_frames _ _
  | busyFail =>
    rw [show connectPhase s inp = serialFailure s from by
      simp [connectPhase, hc]]
    exact serialFailure_frames s
  | fail =>
    rw [show connectPhase s inp = serialFailure s from by
      simp [connectPhase, hc]]
    exact serialFailure_frames s

/-- Claim C9: in every state and under every environment outcome
(malformed line, connection failure, read failure, unexpected error),
every frame one loop iteration hands to the broadcaster is exactly the
text "0" or "1" — no error ever surfaces as a frame. -/
theorem frames_are_binary (s : SDState) (inp : SDInput) :
    ((step s inp).2.frames).all (fun f => f == "0" || f == "1") = true := by
  cases s with
  | mk so sp rc =>
    cases so with
    | true => exact readPhase_frames _ _
    | false =>
      cases sp with
      | some p => exact connectPhase_frames _ _
      | none =>
        cases hfind : find_emg_port inp.ports with
        | none => simp [step, hfind]
        | some p =>
          simpa [step, hfind] using connectPhase_frames ⟨false, some p, rc⟩ inp

end VRHSI
